import Mathlib

/-!
Verification of the LLM-aware gateway (Go repository) against its
natural-language specification.

This file shallowly embeds the data model and the operations of the
repository in Lean 4 and proves or refutes the specification's claims
about them.  Conventions used throughout:

* Go `int64` counters and token counts are modelled as `ℤ` (no overflow is
  reachable in any property considered here);
* `time.Time` / `time.Duration` values are modelled as rational numbers of
  seconds (`ℚ`); `float64` arithmetic on elapsed seconds and rates is
  modelled exactly over `ℚ`, with Go's `int64(x)` float-to-int conversion
  modelled as truncation toward zero (`i64trunc`);
* Go maps are modelled as association lists (`List (String × β)`); where
  the Go code iterates over a map, the list order stands for one concrete
  (nondeterministically chosen) iteration order;
* fallible Go functions returning `error` are modelled with `Except` /
  `Option`;
* external collaborators (the embedding service, etcd, Kafka, the vector
  store) are opaque in the source and are modelled as explicit inputs.
-/

/-- Truncation toward zero of a rational number, the behaviour of Go's
`int64(x)` conversion applied to a (finite) `float64` value. -/
def i64trunc (q : ℚ) : ℤ := if 0 ≤ q then ⌊q⌋ else ⌈q⌉

theorem i64trunc_of_nonneg {q : ℚ} (h : 0 ≤ q) : i64trunc q = ⌊q⌋ := if_pos h

/-- Lookup in an association list modelling a Go map read `m[k]`. -/
def lookupA {β : Type} (l : List (String × β)) (k : String) : Option β :=
  match l with
  | [] => none
  | (k', v) :: rest => if k' = k then some v else lookupA rest k

/-- Insertion into an association list modelling a Go map write `m[k] = v`
(replaces the existing binding if present, otherwise appends). -/
def insertA {β : Type} (l : List (String × β)) (k : String) (v : β) :
    List (String × β) :=
  match l with
  | [] => [(k, v)]
  | (k', v') :: rest =>
      if k' = k then (k, v) :: rest else (k', v') :: insertA rest k v

theorem lookupA_insertA {β : Type} (l : List (String × β)) (k k' : String)
    (v : β) :
    lookupA (insertA l k v) k' = if k = k' then some v else lookupA l k' := by
  induction l with
  | nil => by_cases h : k = k' <;> simp [insertA, lookupA, h]
  | cons hd tl ih =>
      obtain ⟨k₀, v₀⟩ := hd
      by_cases h0 : k₀ = k
      · subst h0
        by_cases h1 : k₀ = k' <;> simp [insertA, lookupA, h1]
      · by_cases h1 : k₀ = k'
        · subst h1
          have hkk : ¬ k = k₀ := fun h => h0 h.symm
          simp [insertA, lookupA, h0, hkk]
        · simp [insertA, lookupA, h0, h1, ih]

/-! ## Token bucket (`pkg/gateway/limiter/token_bucket.go` and
`pkg/utils/token_bucket.go`)

The Go struct `TokenBucket` holds `capacity`, `tokens` (both `int64`),
`refillRate` (`float64`, tokens per second) and `lastRefill`
(`time.Time`).  Every operation takes the current wall-clock time as an
explicit argument `now` here. -/

structure TokenBucket where
  capacity : ℤ
  tokens : ℤ
  refillRate : ℚ
  lastRefill : ℚ
  deriving Repr, DecidableEq

/-- Constructor `NewTokenBucket(capacity, refillRate)`: the bucket starts
full, with `lastRefill = now`. -/
def TokenBucket.new (capacity : ℤ) (refillRate : ℚ) (now : ℚ) : TokenBucket :=
  { capacity := capacity, tokens := capacity, refillRate := refillRate,
    lastRefill := now }

/-- Method `refill` of `pkg/gateway/limiter/token_bucket.go`: when
`elapsed > 0`, add `int64(elapsed * refillRate)` tokens, clamp to the
capacity from above, and set `lastRefill := now` (unconditionally inside
the `elapsed > 0` branch). -/
def TokenBucket.refill (tb : TokenBucket) (now : ℚ) : TokenBucket :=
  let elapsed := now - tb.lastRefill
  if 0 < elapsed then
    let tokensToAdd := i64trunc (elapsed * tb.refillRate)
    let t := tb.tokens + tokensToAdd
    { tb with
      tokens := if tb.capacity < t then tb.capacity else t,
      lastRefill := now }
  else tb

/-- Method `refill` of `pkg/utils/token_bucket.go`: identical update
expressed with `min` in the source. -/
def TokenBucket.refillUtils (tb : TokenBucket) (now : ℚ) : TokenBucket :=
  let elapsed := now - tb.lastRefill
  if 0 < elapsed then
    let tokensToAdd := i64trunc (elapsed * tb.refillRate)
    { tb with
      tokens := min tb.capacity (tb.tokens + tokensToAdd),
      lastRefill := now }
  else tb

/-- Method `Allow` (both token-bucket files): refill, then consume one
token when at least one is present.  Returns the updated bucket and the
admission decision. -/
def TokenBucket.allow (tb : TokenBucket) (now : ℚ) : TokenBucket × Bool :=
  let tb' := tb.refill now
  if 0 < tb'.tokens then ({ tb' with tokens := tb'.tokens - 1 }, true)
  else (tb', false)

/-- Folds a sequence of `Allow` calls (at the given call times) over a
bucket, counting the calls that returned `true`. -/
def TokenBucket.runAllows (tb : TokenBucket) : List ℚ → TokenBucket × ℕ
  | [] => (tb, 0)
  | t :: ts =>
      let step := tb.allow t
      let rest := step.1.runAllows ts
      (rest.1, rest.2 + (if step.2 then 1 else 0))

theorem allow_step (b : TokenBucket) (t : ℚ) (hr : 0 ≤ b.refillRate)
    (htok : 0 ≤ b.tokens) (hcap : 0 ≤ b.capacity) :
    (b.allow t).1.capacity = b.capacity ∧
    (b.allow t).1.refillRate = b.refillRate ∧
    0 ≤ (b.allow t).1.tokens ∧
    b.lastRefill ≤ (b.allow t).1.lastRefill ∧
    (b.allow t).1.lastRefill ≤ max b.lastRefill t ∧
    ((b.allow t).2 = true →
      1 + (b.allow t).1.tokens ≤
        b.tokens + ⌊((b.allow t).1.lastRefill - b.lastRefill) * b.refillRate⌋) ∧
    ((b.allow t).2 = false →
      (b.allow t).1.tokens ≤
        b.tokens + ⌊((b.allow t).1.lastRefill - b.lastRefill) * b.refillRate⌋) := by
  by_cases he : 0 < t - b.lastRefill
  · have hprod : 0 ≤ (t - b.lastRefill) * b.refillRate :=
      mul_nonneg (le_of_lt he) hr
    have hfl : 0 ≤ ⌊(t - b.lastRefill) * b.refillRate⌋ :=
      Int.floor_nonneg.mpr hprod
    simp only [TokenBucket.allow, TokenBucket.refill, if_pos he,
      i64trunc_of_nonneg hprod]
    split_ifs <;>
      refine ⟨rfl, rfl, ?_, ?_, ?_, ?_, ?_⟩ <;>
      simp_all <;> first | omega | linarith
  · simp only [TokenBucket.allow, TokenBucket.refill, if_neg he]
    split_ifs <;>
      refine ⟨rfl, rfl, ?_, ?_, ?_, ?_, ?_⟩ <;>
      simp_all <;> first | omega | linarith

theorem runAllows_key (W : ℚ) :
    ∀ (ts : List ℚ) (b : TokenBucket), 0 ≤ b.refillRate → 0 ≤ b.tokens →
      0 ≤ b.capacity → b.lastRefill ≤ W → (∀ t ∈ ts, t ≤ W) →
      ((b.runAllows ts).2 : ℤ) + (b.runAllows ts).1.tokens ≤
          b.tokens + ⌊(W - b.lastRefill) * b.refillRate⌋ ∧
        0 ≤ (b.runAllows ts).1.tokens := by
  intro ts
  induction ts with
  | nil =>
      intro b hr htok hcap hlr _
      refine ⟨?_, htok⟩
      have : (0 : ℤ) ≤ ⌊(W - b.lastRefill) * b.refillRate⌋ :=
        Int.floor_nonneg.mpr (mul_nonneg (by linarith) hr)
      simp only [TokenBucket.runAllows]
      omega
  | cons t ts ih =>
      intro b hr htok hcap hlr hmem
      obtain ⟨hcapEq, hrEq, htok1, hlr1, hlr2, hcountT, hcountF⟩ :=
        allow_step b t hr htok hcap
      have hlrW : (b.allow t).1.lastRefill ≤ W :=
        le_trans hlr2 (max_le hlr (hmem t (List.mem_cons_self t ts)))
      have hmem2 : ∀ u ∈ ts, u ≤ W := fun u hu =>
        hmem u (List.mem_cons_of_mem t hu)
      obtain ⟨hrec, htokF⟩ := ih (b.allow t).1 (hrEq ▸ hr) htok1
        (hcapEq ▸ hcap) hlrW hmem2
      rw [hrEq] at hrec
      have hfloorAdd :
          ⌊(W - (b.allow t).1.lastRefill) * b.refillRate⌋ +
            ⌊((b.allow t).1.lastRefill - b.lastRefill) * b.refillRate⌋ ≤
            ⌊(W - b.lastRefill) * b.refillRate⌋ := by
        have h2 := Int.le_floor_add
          ((W - (b.allow t).1.lastRefill) * b.refillRate)
          (((b.allow t).1.lastRefill - b.lastRefill) * b.refillRate)
        have harith : (W - (b.allow t).1.lastRefill) * b.refillRate +
            ((b.allow t).1.lastRefill - b.lastRefill) * b.refillRate =
            (W - b.lastRefill) * b.refillRate := by ring
        rw [harith] at h2
        exact h2
      cases hok : (b.allow t).2 with
      | true =>
          have hcount := hcountT hok
          simp only [TokenBucket.runAllows, hok]
          refine ⟨?_, htokF⟩
          push_cast
          omega
      | false =>
          have hcount := hcountF hok
          simp only [TokenBucket.runAllows, hok]
          refine ⟨?_, htokF⟩
          push_cast
          omega

theorem runAllows_le_length (b : TokenBucket) (ts : List ℚ) :
    (b.runAllows ts).2 ≤ ts.length := by
  induction ts generalizing b with
  | nil => simp [TokenBucket.runAllows]
  | cons t ts ih =>
      simp only [TokenBucket.runAllows, List.length_cons]
      have := ih (b.allow t).1
      split_ifs <;> omega

/-- C3: token-bucket conservation.  For any sequence of `Allow` calls on a
bucket with capacity `C` and refill rate `r` that starts full at time `t0`,
with every call time inside the window `[t0, t0 + T]`, the number of calls
returning `true` is at most `min (C + ⌊r·T⌋) (number of calls)`. -/
theorem tokenBucket_conservation (C : ℤ) (r t0 T : ℚ) (ts : List ℚ)
    (hC : 0 ≤ C) (hr : 0 ≤ r) (hT : 0 ≤ T) (hts : ∀ t ∈ ts, t ≤ t0 + T) :
    (((TokenBucket.new C r t0).runAllows ts).2 : ℤ) ≤
      min (C + ⌊r * T⌋) (ts.length : ℤ) := by
  obtain ⟨hbound, htokF⟩ := runAllows_key (t0 + T) ts (TokenBucket.new C r t0)
    hr hC hC (by show t0 ≤ t0 + T; linarith) hts
  have hEq : (t0 + T - (TokenBucket.new C r t0).lastRefill) *
      (TokenBucket.new C r t0).refillRate = T * r := by
    show (t0 + T - t0) * r = T * r
    ring
  rw [hEq] at hbound
  have htokens : (TokenBucket.new C r t0).tokens = C := rfl
  rw [htokens] at hbound
  have hcomm : (⌊T * r⌋ : ℤ) = ⌊r * T⌋ := by rw [mul_comm]
  have h2 : (((TokenBucket.new C r t0).runAllows ts).2 : ℤ) ≤
      (ts.length : ℤ) := by
    exact_mod_cast runAllows_le_length (TokenBucket.new C r t0) ts
  omega

/-- C3 witness: a concrete run of three `Allow` calls on a bucket of
capacity 2 with zero rate admits at most `min (2 + ⌊0⌋) 3` calls. -/
theorem tokenBucket_conservation_witness :
    (((TokenBucket.new 2 0 0).runAllows [0, 0, 0]).2 : ℤ) ≤
      min ((2 : ℤ) + ⌊(0 : ℚ) * 0⌋) (([0, 0, 0] : List ℚ).length : ℤ) :=
  tokenBucket_conservation 2 0 0 0 [0, 0, 0] (by norm_num) (by norm_num)
    (by norm_num) (by intro t ht; simp at ht; simp [ht])

/-- C4 counterexample: with `capacity = 10`, `tokens = 3`, `rate = 1`,
`lastRefill = 0`, calling `refill` at `now = 1/2` adds `int64(1/2) = 0`
tokens, yet both refill implementations still advance `lastRefill` to
`now`, so the elapsed half second is lost instead of accumulating. -/
theorem refill_advances_clock_without_tokens :
    ((TokenBucket.mk 10 3 1 0).refill (1/2)).tokens = 3 ∧
    ((TokenBucket.mk 10 3 1 0).refill (1/2)).lastRefill = 1/2 ∧
    ((TokenBucket.mk 10 3 1 0).refillUtils (1/2)).tokens = 3 ∧
    ((TokenBucket.mk 10 3 1 0).refillUtils (1/2)).lastRefill = 1/2 ∧
    ¬ ((1 : ℚ)/2 = 0) := by
  refine ⟨?_, ?_, ?_, ?_, by norm_num⟩ <;>
    norm_num [TokenBucket.refill, TokenBucket.refillUtils, i64trunc]

/-- C4 amended: on every operation with `elapsed = now - lastRefill > 0`,
both refill implementations set
`tokens := min capacity (tokens + int64(elapsed * rate))` and
unconditionally set `lastRefill := now` (even when zero tokens were
added); when `elapsed ≤ 0` the state is unchanged. -/
theorem refill_rule (tb : TokenBucket) (now : ℚ) :
    (0 < now - tb.lastRefill →
      (tb.refill now).tokens =
          min tb.capacity
            (tb.tokens + i64trunc ((now - tb.lastRefill) * tb.refillRate)) ∧
      (tb.refill now).lastRefill = now ∧
      (tb.refillUtils now).tokens =
          min tb.capacity
            (tb.tokens + i64trunc ((now - tb.lastRefill) * tb.refillRate)) ∧
      (tb.refillUtils now).lastRefill = now) ∧
    (now - tb.lastRefill ≤ 0 →
      tb.refill now = tb ∧ tb.refillUtils now = tb) := by
  constructor
  · intro h
    refine ⟨?_, ?_, ?_, ?_⟩ <;>
      simp only [TokenBucket.refill, TokenBucket.refillUtils, if_pos h] <;>
      omega
  · intro h
    have h' : ¬ 0 < now - tb.lastRefill := by linarith
    exact ⟨by simp only [TokenBucket.refill, if_neg h'],
      by simp only [TokenBucket.refillUtils, if_neg h']⟩

/-- C4 witness: the refill rule evaluated at a bucket with capacity 5,
2 tokens, rate 1 and last refill 0, once at `now = 2` and once at
`now = -1`. -/
theorem refill_rule_witness :
    ((TokenBucket.mk 5 2 1 0).refill 2).tokens =
        min (5 : ℤ) (2 + i64trunc (((2 : ℚ) - 0) * 1)) ∧
    (TokenBucket.mk 5 2 1 0).refill (-1) = TokenBucket.mk 5 2 1 0 :=
  ⟨((refill_rule (TokenBucket.mk 5 2 1 0) 2).1 (by norm_num)).1,
   ((refill_rule (TokenBucket.mk 5 2 1 0) (-1)).2 (by norm_num)).1⟩

/-! ## Cluster circuit breaker (`pkg/gateway/breaker`, second section of
`pkg/gateway/gateway.go`)

The Go type `clusterBreaker` carries a `breakerStats` block that only
feeds metrics, never decisions; it is omitted here.  `types.BreakerState`
has the values CLOSED, OPEN and HALF_OPEN. -/

inductive BreakerState where
  | closed
  | opened
  | halfOpen
  deriving Repr, DecidableEq

/-- Configuration `types.BreakerConfig`: `FailureThreshold` (`int64`),
`RecoveryTimeout` (`time.Duration`), `RecoveryIncrement` (`float64`). -/
structure BreakerConfig where
  failureThreshold : ℤ
  recoveryTimeout : ℚ
  recoveryIncrement : ℚ
  deriving Repr, DecidableEq

/-- Record `types.RateLimitPolicy`. -/
structure RateLimitPolicy where
  limitRate : ℚ
  duration : ℚ
  deriving Repr, DecidableEq

/-- Record `types.CircuitBreakPolicy`. -/
structure CircuitBreakPolicy where
  breakDuration : ℚ
  recoveryStep : ℚ
  deriving Repr, DecidableEq

/-- Enumeration `types.PolicyType`. -/
inductive PolicyType where
  | rateLimit
  | circuitBreak
  | degrade
  deriving Repr, DecidableEq

/-- Record `types.Policy`. -/
structure Policy where
  policyId : String
  clusterId : String
  policyType : PolicyType
  severity : ℚ
  rateLimit : Option RateLimitPolicy
  circuitBreak : Option CircuitBreakPolicy
  createTime : ℚ
  expireTime : ℚ
  isActive : Bool
  deriving Repr, DecidableEq

/-- Per-cluster record `clusterBreaker` (stats omitted). -/
structure ClusterBreaker where
  clusterId : String
  state : BreakerState
  policy : Option Policy
  failureCount : ℤ
  successCount : ℤ
  lastFailTime : ℚ
  nextRetry : ℚ
  config : BreakerConfig
  deriving Repr, DecidableEq

/-- Method `reset`: zero both counters. -/
def ClusterBreaker.reset (cb : ClusterBreaker) : ClusterBreaker :=
  { cb with failureCount := 0, successCount := 0 }

/-- The `clusterBreaker` value created inside `UpdatePolicy` for a
previously unseen cluster: CLOSED state, Go zero values everywhere else,
config taken from the breaker-wide configuration. -/
def initialClusterBreaker (id : String) (cfg : BreakerConfig) :
    ClusterBreaker :=
  { clusterId := id, state := .closed, policy := none, failureCount := 0,
    successCount := 0, lastFailTime := 0, nextRetry := 0, config := cfg }

/-- Per-breaker behaviour of `Allow` (the `switch breaker.State` block):
CLOSED and HALF_OPEN admit; OPEN admits exactly when
`time.Now().After(NextRetry)`, transitioning to HALF_OPEN. -/
def ClusterBreaker.allow (cb : ClusterBreaker) (now : ℚ) :
    ClusterBreaker × Bool :=
  match cb.state with
  | .closed => (cb, true)
  | .opened =>
      if cb.nextRetry < now then ({ cb with state := .halfOpen }, true)
      else (cb, false)
  | .halfOpen => (cb, true)

/-- Per-breaker behaviour of `RecordFailure`: increment the failure
counter, stamp the failure time, then drive CLOSED → OPEN at the
threshold and HALF_OPEN → OPEN on any failure. -/
def ClusterBreaker.recordFailure (cb : ClusterBreaker) (now : ℚ) :
    ClusterBreaker :=
  let cb1 :=
    { cb with
        failureCount := cb.failureCount + 1
        lastFailTime := now }
  match cb1.state with
  | .closed =>
      if cb1.config.failureThreshold ≤ cb1.failureCount then
        { cb1 with
            state := .opened
            nextRetry := now + cb1.config.recoveryTimeout }
      else cb1
  | .halfOpen =>
      { cb1 with
          state := .opened
          nextRetry := now + cb1.config.recoveryTimeout }
  | .opened => cb1

/-- Per-breaker behaviour of `RecordSuccess`: increment the success
counter; in HALF_OPEN close and reset once the counter reaches
`int64(float64(FailureThreshold) * RecoveryIncrement)`; in OPEN the
source increments the success counter a second time. -/
def ClusterBreaker.recordSuccess (cb : ClusterBreaker) : ClusterBreaker :=
  let cb1 := { cb with successCount := cb.successCount + 1 }
  match cb1.state with
  | .halfOpen =>
      let recoveryThreshold :=
        i64trunc ((cb1.config.failureThreshold : ℚ) *
          cb1.config.recoveryIncrement)
      if recoveryThreshold ≤ cb1.successCount then
        ClusterBreaker.reset { cb1 with state := .closed }
      else cb1
  | .opened => { cb1 with successCount := cb1.successCount + 1 }
  | .closed => cb1

theorem allow_opened_false (cb : ClusterBreaker) (now : ℚ)
    (hs : cb.state = .opened) (h : now ≤ cb.nextRetry) :
    (cb.allow now).2 = false := by
  simp only [ClusterBreaker.allow, hs]
  rw [if_neg (by linarith)]

theorem allow_opened_true (cb : ClusterBreaker) (now : ℚ)
    (hs : cb.state = .opened) (h : (cb.allow now).2 = true) :
    cb.nextRetry ≤ now := by
  simp only [ClusterBreaker.allow, hs] at h
  by_cases hr : cb.nextRetry < now
  · linarith
  · rw [if_neg hr] at h
    simp at h

theorem foldRecordFailure_opens :
    ∀ (ts : List ℚ) (cb : ClusterBreaker), cb.state = .closed →
      0 ≤ cb.failureCount →
      cb.failureCount + ts.length = cb.config.failureThreshold →
      1 ≤ ts.length →
      (ts.foldl (fun b t => b.recordFailure t) cb).state = .opened := by
  intro ts
  induction ts with
  | nil => intro cb _ _ _ hlen; simp at hlen
  | cons t rest ih =>
      intro cb hs hfc hsum _
      rw [List.foldl_cons]
      by_cases hr : rest = []
      · subst hr
        simp only [List.length_cons, List.length_nil, Nat.cast_add,
          Nat.cast_zero, Nat.cast_one] at hsum
        have hth : cb.config.failureThreshold ≤ cb.failureCount + 1 := by
          omega
        simp only [List.foldl_nil, ClusterBreaker.recordFailure, hs]
        rw [if_pos hth]
      · have hlen : 1 ≤ rest.length := by
          cases rest with
          | nil => exact absurd rfl hr
          | cons _ _ => simp
        have hlenZ : (1 : ℤ) ≤ (rest.length : ℤ) := by exact_mod_cast hlen
        have hsum2 : cb.failureCount + (1 + (rest.length : ℤ)) =
            cb.config.failureThreshold := by
          simp only [List.length_cons] at hsum
          push_cast at hsum
          omega
        have hcond : ¬ (cb.config.failureThreshold ≤ cb.failureCount + 1) :=
          by omega
        have hstate : (cb.recordFailure t).state = .closed := by
          simp only [ClusterBreaker.recordFailure, hs]
          rw [if_neg hcond]
        have hfcEq : (cb.recordFailure t).failureCount =
            cb.failureCount + 1 := by
          simp only [ClusterBreaker.recordFailure, hs]
          rw [if_neg hcond]
        have hcfgEq : (cb.recordFailure t).config = cb.config := by
          simp only [ClusterBreaker.recordFailure, hs]
          rw [if_neg hcond]
        apply ih (cb.recordFailure t) hstate (by rw [hfcEq]; omega) ?_ hlen
        rw [hfcEq, hcfgEq]
        push_cast
        omega

/-- C1: starting CLOSED with zero counters, exactly `failureThreshold`
consecutive `RecordFailure` calls drive the breaker to OPEN; an `Allow`
at any `now ≤ nextRetry` is then denied, and while OPEN no `Allow` is
granted before `nextRetry ≤ now`. -/
theorem breaker_monotonicity (cfg : BreakerConfig) (id : String) (n : ℕ)
    (hn : 1 ≤ n) (hth : cfg.failureThreshold = (n : ℤ)) (ts : List ℚ)
    (hlen : ts.length = n) :
    (ts.foldl (fun b t => b.recordFailure t)
        (initialClusterBreaker id cfg)).state = .opened ∧
    (∀ now : ℚ,
      now ≤ (ts.foldl (fun b t => b.recordFailure t)
          (initialClusterBreaker id cfg)).nextRetry →
      ((ts.foldl (fun b t => b.recordFailure t)
          (initialClusterBreaker id cfg)).allow now).2 = false) ∧
    (∀ (cb : ClusterBreaker) (now : ℚ), cb.state = .opened →
      (cb.allow now).2 = true → cb.nextRetry ≤ now) := by
  have hopen : (ts.foldl (fun b t => b.recordFailure t)
      (initialClusterBreaker id cfg)).state = .opened := by
    apply foldRecordFailure_opens ts (initialClusterBreaker id cfg) rfl
      (le_refl 0)
    · simp [initialClusterBreaker, hth, hlen]
    · omega
  exact ⟨hopen, fun now h => allow_opened_false _ now hopen h,
    fun cb now hs h => allow_opened_true cb now hs h⟩

/-- C1 witness: with threshold 2 and recovery timeout 5, two failures at
times 0 and 1 open the breaker; an `Allow` at time 3 (before the retry
time 6) is denied, and an OPEN breaker that granted an `Allow` at time 1
had `nextRetry ≤ 1`. -/
theorem breaker_monotonicity_witness :
    ([(0 : ℚ), 1].foldl (fun b t => b.recordFailure t)
        (initialClusterBreaker "c" ⟨2, 5, 1⟩)).state = BreakerState.opened ∧
    (([(0 : ℚ), 1].foldl (fun b t => b.recordFailure t)
        (initialClusterBreaker "c" ⟨2, 5, 1⟩)).allow 3).2 = false ∧
    (ClusterBreaker.mk "x" .opened none 0 0 0 0 ⟨2, 5, 1⟩).nextRetry ≤ 1 :=
  have h := breaker_monotonicity ⟨2, 5, 1⟩ "c" 2 (by norm_num) rfl
    [0, 1] rfl
  ⟨h.1,
   h.2.1 3 (by
     norm_num [List.foldl, ClusterBreaker.recordFailure,
       initialClusterBreaker]),
   h.2.2 (ClusterBreaker.mk "x" .opened none 0 0 0 0 ⟨2, 5, 1⟩) 1 rfl (by
     norm_num [ClusterBreaker.allow])⟩

/-- C7 counterexample: with `failure_threshold = 3` and
`recovery_increment = 1/2`, the product is `3/2`; rounded to the nearest
integer that is 2, but the source computes `int64(1.5) = 1`, so a single
half-open success already closes the breaker. -/
theorem recovery_threshold_truncated_not_rounded :
    ({ initialClusterBreaker "k" ⟨3, 5, 1/2⟩ with
        state := BreakerState.halfOpen }).recordSuccess.state =
      BreakerState.closed ∧
    (1 : ℤ) < round ((3 : ℚ) * (1/2)) := by
  constructor
  · norm_num [ClusterBreaker.recordSuccess, ClusterBreaker.reset,
      initialClusterBreaker, i64trunc]
  · norm_num [round_eq]

/-- C7 amended: in HALF_OPEN, `RecordSuccess` moves the breaker to CLOSED
exactly when the incremented success counter reaches
`int64(float64(failure_threshold) * recovery_increment)` — truncation
toward zero, not rounding to the nearest integer — and on that
transition both counters are reset to zero; otherwise the breaker stays
HALF_OPEN with only the success counter incremented. -/
theorem halfOpen_recovery_rule (cb : ClusterBreaker)
    (h : cb.state = .halfOpen) :
    (i64trunc ((cb.config.failureThreshold : ℚ) *
        cb.config.recoveryIncrement) ≤ cb.successCount + 1 →
      cb.recordSuccess.state = .closed ∧
      cb.recordSuccess.failureCount = 0 ∧
      cb.recordSuccess.successCount = 0) ∧
    (¬ i64trunc ((cb.config.failureThreshold : ℚ) *
        cb.config.recoveryIncrement) ≤ cb.successCount + 1 →
      cb.recordSuccess.state = .halfOpen ∧
      cb.recordSuccess.successCount = cb.successCount + 1 ∧
      cb.recordSuccess.failureCount = cb.failureCount) := by
  constructor
  · intro hc
    simp only [ClusterBreaker.recordSuccess, ClusterBreaker.reset, h]
    rw [if_pos hc]
    exact ⟨rfl, rfl, rfl⟩
  · intro hc
    simp only [ClusterBreaker.recordSuccess, h]
    rw [if_neg hc]
    exact ⟨rfl, rfl, rfl⟩

/-- C7 witness: with threshold 4 and increment 1/2 the computed recovery
threshold is 2; a breaker with one prior half-open success closes on the
next success, a fresh one does not. -/
theorem halfOpen_recovery_rule_witness :
    ({ initialClusterBreaker "w" ⟨4, 5, 1/2⟩ with
        state := BreakerState.halfOpen,
        successCount := 1 }).recordSuccess.state = BreakerState.closed ∧
    ({ initialClusterBreaker "w" ⟨4, 5, 1/2⟩ with
        state := BreakerState.halfOpen }).recordSuccess.state =
      BreakerState.halfOpen :=
  ⟨((halfOpen_recovery_rule _ rfl).1 (by
      norm_num [initialClusterBreaker, i64trunc])).1,
   ((halfOpen_recovery_rule _ rfl).2 (by
      norm_num [initialClusterBreaker, i64trunc])).1⟩

/-- The top-level `clusterCircuitBreaker`: the shared configuration and
the per-cluster map `clusters`. -/
structure ClusterCircuitBreaker where
  config : BreakerConfig
  clusters : List (String × ClusterBreaker)

/-- Method `Allow(ctx, clusterID)`: empty cluster id or missing map entry
admit unconditionally; otherwise the per-breaker state machine decides
and its updated state is written back. -/
def ClusterCircuitBreaker.allow (ccb : ClusterCircuitBreaker) (now : ℚ)
    (clusterID : String) : ClusterCircuitBreaker × Bool :=
  if clusterID = "" then (ccb, true)
  else
    match lookupA ccb.clusters clusterID with
    | none => (ccb, true)
    | some cb =>
        let r := cb.allow now
        ({ ccb with clusters := insertA ccb.clusters clusterID r.1 }, r.2)

/-- Method `RecordSuccess(clusterID)`: no-op (returning nil) on empty id
or missing entry. -/
def ClusterCircuitBreaker.recordSuccess (ccb : ClusterCircuitBreaker)
    (clusterID : String) : ClusterCircuitBreaker × Option String :=
  if clusterID = "" then (ccb, none)
  else
    match lookupA ccb.clusters clusterID with
    | none => (ccb, none)
    | some cb =>
        ({ ccb with
            clusters := insertA ccb.clusters clusterID cb.recordSuccess },
         none)

/-- Method `RecordFailure(clusterID)`: no-op (returning nil) on empty id
or missing entry. -/
def ClusterCircuitBreaker.recordFailure (ccb : ClusterCircuitBreaker)
    (clusterID : String) (now : ℚ) : ClusterCircuitBreaker × Option String :=
  if clusterID = "" then (ccb, none)
  else
    match lookupA ccb.clusters clusterID with
    | none => (ccb, none)
    | some cb =>
        ({ ccb with
            clusters := insertA ccb.clusters clusterID
              (cb.recordFailure now) },
         none)

/-- Method `GetState(clusterID)`: CLOSED for empty id or missing entry. -/
def ClusterCircuitBreaker.getState (ccb : ClusterCircuitBreaker)
    (clusterID : String) : BreakerState :=
  if clusterID = "" then .closed
  else
    match lookupA ccb.clusters clusterID with
    | none => .closed
    | some cb => cb.state

/-- Method `UpdatePolicy(clusterID, policy)`: rejects a nil policy;
creates the per-cluster breaker when absent; on a circuit-break policy
with parameters replaces the breaker's config and, when
`severity ≥ 0.8`, opens the breaker immediately. -/
def ClusterCircuitBreaker.updatePolicy (ccb : ClusterCircuitBreaker)
    (clusterID : String) (policy : Option Policy) (now : ℚ) :
    ClusterCircuitBreaker × Option String :=
  match policy with
  | none => (ccb, some "policy cannot be nil")
  | some p =>
      let cb := (lookupA ccb.clusters clusterID).getD
        (initialClusterBreaker clusterID ccb.config)
      let cb1 := { cb with policy := some p }
      let cb2 :=
        match p.policyType, p.circuitBreak with
        | .circuitBreak, some cbp =>
            let cb3 :=
              { cb1 with
                  config :=
                    { failureThreshold := ccb.config.failureThreshold
                      recoveryTimeout := cbp.breakDuration
                      recoveryIncrement := cbp.recoveryStep } }
            if 8/10 ≤ p.severity then
              { cb3 with
                  state := .opened
                  nextRetry := now + cbp.breakDuration }
            else cb3
        | _, _ => cb1
      ({ ccb with clusters := insertA ccb.clusters clusterID cb2 }, none)

/-- C10: for a cluster id with no map entry (one never passed to
`UpdatePolicy`), `Allow` admits and leaves the state unchanged,
`GetState` reports CLOSED, `RecordFailure` and `RecordSuccess` return
nil without touching anything, and no call to `Allow`, `RecordFailure`
or `RecordSuccess` (for any cluster) can create the missing entry — so
request failures alone can never trip that cluster's breaker. -/
theorem breaker_untouched_without_policy (ccb : ClusterCircuitBreaker)
    (id : String) (now : ℚ) (h : lookupA ccb.clusters id = none) :
    ccb.allow now id = (ccb, true) ∧
    ccb.getState id = .closed ∧
    ccb.recordFailure id now = (ccb, none) ∧
    ccb.recordSuccess id = (ccb, none) ∧
    (∀ (id2 : String) (now2 : ℚ),
      lookupA (ccb.allow now2 id2).1.clusters id = none) ∧
    (∀ (id2 : String) (now2 : ℚ),
      lookupA (ccb.recordFailure id2 now2).1.clusters id = none) ∧
    (∀ id2 : String,
      lookupA (ccb.recordSuccess id2).1.clusters id = none) := by
  have hmem : ∀ (id2 : String) (cb : ClusterBreaker),
      lookupA ccb.clusters id2 = some cb → ¬ id2 = id := by
    intro id2 cb hlk he
    rw [he, h] at hlk
    exact Option.noConfusion hlk
  refine ⟨?_, ?_, ?_, ?_, ?_, ?_, ?_⟩
  · by_cases hid : id = "" <;>
      simp [ClusterCircuitBreaker.allow, hid, h]
  · by_cases hid : id = "" <;>
      simp [ClusterCircuitBreaker.getState, hid, h]
  · by_cases hid : id = "" <;>
      simp [ClusterCircuitBreaker.recordFailure, hid, h]
  · by_cases hid : id = "" <;>
      simp [ClusterCircuitBreaker.recordSuccess, hid, h]
  · intro id2 now2
    by_cases hid2 : id2 = ""
    · simp [ClusterCircuitBreaker.allow, hid2, h]
    · cases hlk : lookupA ccb.clusters id2 with
      | none => simp [ClusterCircuitBreaker.allow, hid2, hlk, h]
      | some cb =>
          simp [ClusterCircuitBreaker.allow, hid2, hlk, lookupA_insertA,
            hmem id2 cb hlk, h]
  · intro id2 now2
    by_cases hid2 : id2 = ""
    · simp [ClusterCircuitBreaker.recordFailure, hid2, h]
    · cases hlk : lookupA ccb.clusters id2 with
      | none => simp [ClusterCircuitBreaker.recordFailure, hid2, hlk, h]
      | some cb =>
          simp [ClusterCircuitBreaker.recordFailure, hid2, hlk,
            lookupA_insertA, hmem id2 cb hlk, h]
  · intro id2
    by_cases hid2 : id2 = ""
    · simp [ClusterCircuitBreaker.recordSuccess, hid2, h]
    · cases hlk : lookupA ccb.clusters id2 with
      | none => simp [ClusterCircuitBreaker.recordSuccess, hid2, hlk, h]
      | some cb =>
          simp [ClusterCircuitBreaker.recordSuccess, hid2, hlk,
            lookupA_insertA, hmem id2 cb hlk, h]

/-- C10 witness: the empty breaker map at configuration (3, 5, 1). -/
theorem breaker_untouched_without_policy_witness :
    (ClusterCircuitBreaker.mk ⟨3, 5, 1⟩ []).allow 0 "c" =
        (ClusterCircuitBreaker.mk ⟨3, 5, 1⟩ [], true) ∧
    (ClusterCircuitBreaker.mk ⟨3, 5, 1⟩ []).getState "c" = .closed ∧
    (ClusterCircuitBreaker.mk ⟨3, 5, 1⟩ []).recordFailure "c" 0 =
        (ClusterCircuitBreaker.mk ⟨3, 5, 1⟩ [], none) ∧
    (ClusterCircuitBreaker.mk ⟨3, 5, 1⟩ []).recordSuccess "c" =
        (ClusterCircuitBreaker.mk ⟨3, 5, 1⟩ [], none) ∧
    lookupA ((ClusterCircuitBreaker.mk ⟨3, 5, 1⟩ []).allow 1
        "d").1.clusters "c" = none ∧
    lookupA ((ClusterCircuitBreaker.mk ⟨3, 5, 1⟩ []).recordFailure "d"
        1).1.clusters "c" = none ∧
    lookupA ((ClusterCircuitBreaker.mk ⟨3, 5, 1⟩ []).recordSuccess
        "d").1.clusters "c" = none :=
  have h := breaker_untouched_without_policy
    (ClusterCircuitBreaker.mk ⟨3, 5, 1⟩ []) "c" 0 rfl
  ⟨h.1, h.2.1, h.2.2.1, h.2.2.2.1, h.2.2.2.2.1 "d" 1,
   h.2.2.2.2.2.1 "d" 1, h.2.2.2.2.2.2 "d"⟩

/-- The cluster-identification and admission step of
`Middleware.CircuitBreaker`: `IdentifyCluster` is consulted and its
result adopted only when it returned no error; then the breaker's
`Allow` runs on the chosen cluster id. -/
def middlewareCircuitBreakerAdmit (ccb : ClusterCircuitBreaker)
    (identify : Except String String) (now : ℚ) :
    ClusterCircuitBreaker × Bool :=
  let clusterID :=
    match identify with
    | .ok id => id
    | .error _ => ""
  ccb.allow now clusterID

/-- C6: when the vector agent's `IdentifyCluster` returns an error at
admission time, the middleware keeps the empty cluster id, the breaker's
`Allow` bypasses, and the request is admitted — the error path alone
never produces a denial. -/
theorem admission_fails_open_on_identify_error
    (ccb : ClusterCircuitBreaker) (e : String) (now : ℚ) :
    middlewareCircuitBreakerAdmit ccb (.error e) now = (ccb, true) := by
  simp [middlewareCircuitBreakerAdmit, ClusterCircuitBreaker.allow]

/-! ## Clustering engine (control plane) and vector agent lookup

`types.Cluster` and the engine's operations.  The embedding service and
`utils.CosineSimilarity` are opaque numeric collaborators operating on
`float64`; operations take the already-computed embedding vector as an
argument, and the similarity measure is an explicit function parameter
`sim`.  For unit-norm vectors with exactly representable components the
value of `utils.CosineSimilarity` is exactly the dot product (the norms
are exactly 1 and `math.Sqrt 1 = 1`), which `dotList` provides for the
concrete instances below. -/

structure Cluster where
  id : String
  centroid : List ℚ
  members : List String
  errorCount : ℤ
  createTime : ℚ
  updateTime : ℚ
  severity : ℚ
  description : String
  deriving Repr, DecidableEq

/-- Configuration `types.ClusteringConfig` (fields not used by the
operations below — re-cluster interval, minimum cluster size — are
omitted). -/
structure ClusteringConfig where
  similarityThreshold : ℚ
  maxClusters : ℕ
  deriving Repr, DecidableEq

/-- State of `clusteringEngine`: the cluster table and the member index. -/
structure ClusteringEngine where
  clusters : List (String × Cluster)
  memberToCluster : List (String × String)
  deriving Repr, DecidableEq

/-- The exact value of `utils.CosineSimilarity` at unit-norm exactly
representable vectors: the dot product. -/
def dotList (a b : List ℚ) : ℚ := (List.zipWith (fun x y => x * y) a b).sum

/-- Method `FindMostSimilarCluster`: scan the cluster map (in one
iteration order), skipping empty centroids, keeping the first cluster
whose similarity strictly exceeds the best so far (initially 0). -/
def findMostSimilarCluster (sim : List ℚ → List ℚ → ℚ)
    (eng : ClusteringEngine) (v : List ℚ) : String × ℚ :=
  eng.clusters.foldl
    (fun best kv =>
      if kv.2.centroid = [] then best
      else
        let s := sim v kv.2.centroid
        if best.2 < s then (kv.1, s) else best)
    ("", 0)

/-- Method `CreateNewCluster`: refuse with an error once
`len(clusters) ≥ MaxClusters`; otherwise install a singleton cluster
(`GenerateClusterID` is opaque and passed in as `newClusterId`). -/
def createNewCluster (cfg : ClusteringConfig) (eng : ClusteringEngine)
    (eventId : String) (v : List ℚ) (newClusterId : String) (now : ℚ)
    (description : String) : Except String (ClusteringEngine × String) :=
  if cfg.maxClusters ≤ eng.clusters.length then
    .error ("maximum number of clusters (" ++ toString cfg.maxClusters ++
      ") reached")
  else
    let cluster : Cluster :=
      { id := newClusterId, centroid := v, members := [eventId],
        errorCount := 1, createTime := now, updateTime := now,
        severity := 0, description := description }
    .ok ({ clusters := insertA eng.clusters newClusterId cluster,
           memberToCluster := insertA eng.memberToCluster eventId
             newClusterId },
         newClusterId)

/-- Method `updateCentroid`: incremental mean over the new member count
`n = len(members)` (after the append), skipped on dimension mismatch. -/
def updateCentroid (cluster : Cluster) (newVector : List ℚ) : Cluster :=
  if cluster.centroid.length ≠ newVector.length then cluster
  else
    let n : ℚ := cluster.members.length
    { cluster with
        centroid := List.zipWith (fun c vi => (c * (n - 1) + vi) / n)
          cluster.centroid newVector }

/-- Method `addEventToCluster`: append the member, bump the counter and
the update time, refresh the centroid and the member index. -/
def addEventToCluster (eng : ClusteringEngine) (clusterID eventId : String)
    (v : List ℚ) (now : ℚ) : Except String ClusteringEngine :=
  match lookupA eng.clusters clusterID with
  | none => .error ("cluster not found: " ++ clusterID)
  | some cluster =>
      let cluster1 :=
        { cluster with
            members := cluster.members ++ [eventId]
            errorCount := cluster.errorCount + 1
            updateTime := now }
      let cluster2 := updateCentroid cluster1 v
      .ok { clusters := insertA eng.clusters clusterID cluster2,
            memberToCluster := insertA eng.memberToCluster eventId
              clusterID }

/-- Method `ProcessErrorEvent` after the signature has been embedded
(steps 1–2 are the opaque embedding collaborator): create a new cluster
when nothing matched or the best similarity is below the threshold, else
join the best cluster.  Error strings are wrapped exactly as the source
wraps them with `fmt.Errorf`. -/
def processErrorEvent (cfg : ClusteringConfig)
    (sim : List ℚ → List ℚ → ℚ) (eng : ClusteringEngine)
    (eventId : String) (v : List ℚ) (newClusterId : String) (now : ℚ)
    (description : String) : Except String (ClusteringEngine × String) :=
  let fr := findMostSimilarCluster sim eng v
  if fr.1 = "" ∨ fr.2 < cfg.similarityThreshold then
    match createNewCluster cfg eng eventId v newClusterId now description
      with
    | .error msg => .error ("failed to create new cluster: " ++ msg)
    | .ok r => .ok r
  else
    match addEventToCluster eng fr.1 eventId v now with
    | .error msg => .error ("failed to add event to cluster: " ++ msg)
    | .ok e2 => .ok (e2, fr.1)

/-- Data-plane twin `vectorAgent.findMostSimilarCluster`: same scan but a
candidate must also reach the similarity threshold. -/
def vaFindMostSimilarCluster (sim : List ℚ → List ℚ → ℚ)
    (clusters : List (String × Cluster)) (threshold : ℚ) (v : List ℚ) :
    String :=
  (clusters.foldl
    (fun best kv =>
      if kv.2.centroid = [] then best
      else
        let s := sim v kv.2.centroid
        if best.2 < s ∧ threshold ≤ s then (kv.1, s) else best)
    ("", 0)).1

/-- One concrete cluster used by the counterexamples below. -/
def unitCluster (id : String) : Cluster :=
  { id := id, centroid := [1, 0], members := ["m0"], errorCount := 1,
    createTime := 0, updateTime := 0, severity := 0, description := "d" }

/-- C2 counterexample: one existing cluster, `max_clusters = 1`, and a
query vector orthogonal to the centroid (similarity 0, below the 0.82
threshold).  `ProcessErrorEvent` returns the wrapped max-clusters error
instead of merging into the nearest cluster. -/
theorem processErrorEvent_rejects_at_max_clusters :
    processErrorEvent ⟨82/100, 1⟩ dotList
        ⟨[("cluster_a", unitCluster "cluster_a")], [("m0", "cluster_a")]⟩
        "e1" [0, 1] "cluster_new" 7 "d" =
      Except.error
        "failed to create new cluster: maximum number of clusters (1) reached"
      := by
  norm_num [processErrorEvent, findMostSimilarCluster, createNewCluster,
    dotList, unitCluster, List.foldl, List.cons_ne_nil]
  rfl

/-- C2 amended: when no cluster matches (or the best similarity is below
the threshold) and the cluster count has reached `max_clusters`,
`ProcessErrorEvent` returns the wrapped `maximum number of clusters
reached` error and performs no merge. -/
theorem processErrorEvent_error_at_max_clusters (cfg : ClusteringConfig)
    (sim : List ℚ → List ℚ → ℚ) (eng : ClusteringEngine)
    (eventId : String) (v : List ℚ) (newClusterId : String) (now : ℚ)
    (description : String)
    (hfull : cfg.maxClusters ≤ eng.clusters.length)
    (hmiss : (findMostSimilarCluster sim eng v).1 = "" ∨
      (findMostSimilarCluster sim eng v).2 < cfg.similarityThreshold) :
    processErrorEvent cfg sim eng eventId v newClusterId now description =
      Except.error ("failed to create new cluster: " ++
        ("maximum number of clusters (" ++ toString cfg.maxClusters ++
          ") reached")) := by
  simp only [processErrorEvent]
  rw [if_pos hmiss]
  simp only [createNewCluster]
  rw [if_pos hfull]

/-- C2 witness: the amended statement applied to the concrete engine of
the counterexample. -/
theorem processErrorEvent_error_at_max_clusters_witness :
    processErrorEvent ⟨82/100, 1⟩ dotList
        ⟨[("cluster_a", unitCluster "cluster_a")], [("m0", "cluster_a")]⟩
        "e2" [0, 1] "cluster_new2" 9 "d" =
      Except.error ("failed to create new cluster: " ++
        ("maximum number of clusters (" ++ toString (1 : ℕ) ++
          ") reached")) :=
  processErrorEvent_error_at_max_clusters ⟨82/100, 1⟩ dotList
    ⟨[("cluster_a", unitCluster "cluster_a")], [("m0", "cluster_a")]⟩
    "e2" [0, 1] "cluster_new2" 9 "d" (by norm_num)
    (Or.inl (by
      norm_num [findMostSimilarCluster, dotList, unitCluster,
        List.foldl]))

/-- C5 counterexample: two clusters with identical centroids tie at
similarity 1; both lookups return the cluster that comes first in the
map iteration order ("b" here), not the lexicographically smallest id
"a". -/
theorem tie_break_not_lexicographic :
    (findMostSimilarCluster dotList
        ⟨[("b", unitCluster "b"), ("a", unitCluster "a")], []⟩
        [1, 0]).1 = "b" ∧
    vaFindMostSimilarCluster dotList
        [("b", unitCluster "b"), ("a", unitCluster "a")] (82/100)
        [1, 0] = "b" ∧
    ("a" : String) < "b" := by
  refine ⟨?_, ?_, by rw [String.lt_iff_toList_lt]; decide⟩ <;>
    norm_num [findMostSimilarCluster, vaFindMostSimilarCluster, dotList,
      unitCluster, List.foldl, List.cons_ne_nil]

/-- C5 amended: on equal similarity the cluster encountered first in the
map iteration order wins (strict `>` comparison never replaces the
incumbent), for both the clustering engine's and the vector agent's
lookup; since Go map iteration order is unspecified, the winner is not
determined by id order. -/
theorem tie_keeps_first_in_iteration_order
    (sim : List ℚ → List ℚ → ℚ) (a b : String) (ca cb : Cluster)
    (m : List (String × String)) (v : List ℚ) (thr : ℚ)
    (hna : ¬ ca.centroid = []) (hnb : ¬ cb.centroid = [])
    (heq : sim v cb.centroid = sim v ca.centroid)
    (hpos : 0 < sim v ca.centroid) (hthr : thr ≤ sim v ca.centroid) :
    (findMostSimilarCluster sim ⟨[(a, ca), (b, cb)], m⟩ v).1 = a ∧
    vaFindMostSimilarCluster sim [(a, ca), (b, cb)] thr v = a := by
  constructor
  · simp only [findMostSimilarCluster, List.foldl_cons, List.foldl_nil]
    rw [if_neg hna]
    rw [if_pos (show (("", (0 : ℚ))).2 < sim v ca.centroid from hpos)]
    rw [if_neg hnb]
    rw [if_neg (show ¬ ((a, sim v ca.centroid)).2 < sim v cb.centroid by
      rw [heq]; exact lt_irrefl _)]
  · simp only [vaFindMostSimilarCluster, List.foldl_cons, List.foldl_nil]
    rw [if_neg hna]
    rw [if_pos (show (("", (0 : ℚ))).2 < sim v ca.centroid ∧
        thr ≤ sim v ca.centroid from ⟨hpos, hthr⟩)]
    rw [if_neg hnb]
    rw [if_neg (show ¬ (((a, sim v ca.centroid)).2 < sim v cb.centroid ∧
        thr ≤ sim v cb.centroid) by
      rw [heq]; exact fun hh => lt_irrefl _ hh.1)]

/-- C5 witness: the tie rule applied at two concrete identical-centroid
clusters with threshold 0.82 and query equal to the centroid. -/
theorem tie_keeps_first_in_iteration_order_witness :
    (findMostSimilarCluster dotList
        ⟨[("p", unitCluster "p"), ("q", unitCluster "q")], []⟩
        [1, 0]).1 = "p" ∧
    vaFindMostSimilarCluster dotList
        [("p", unitCluster "p"), ("q", unitCluster "q")] (82/100)
        [1, 0] = "p" :=
  tie_keeps_first_in_iteration_order dotList "p" "q" (unitCluster "p")
    (unitCluster "q") [] [1, 0] (82/100)
    (by simp [unitCluster]) (by simp [unitCluster])
    (by norm_num [unitCluster]) (by norm_num [unitCluster, dotList])
    (by norm_num [unitCluster, dotList])

/-! ## Config watcher (`configWatcher`, etcd policy distribution)

The etcd client is an opaque collaborator: the initial `Get` result and
the watch events are inputs.  JSON decoding of a stored value is
modelled as `Option Policy` (`none` = `json.Unmarshal` failure); key
prefixes are already trimmed to cluster ids.  Callback fan-out is
modelled by returning the list of notifications handed to callbacks. -/

inductive WatcherNotification where
  | update (clusterId : String) (policy : Policy)
  | delete (clusterId : String)
  deriving Repr, DecidableEq

/-- An etcd watch event for one `/policies/<id>` key. -/
inductive WatchEvent where
  | put (clusterId : String) (value : Option Policy)
  | del (clusterId : String)
  deriving Repr, DecidableEq

/-- Removal from an association list modelling Go's `delete(m, k)`. -/
def removeA {β : Type} (l : List (String × β)) (k : String) :
    List (String × β) :=
  match l with
  | [] => []
  | (k', v) :: rest =>
      if k' = k then removeA rest k else (k', v) :: removeA rest k

/-- Method `GetPolicy`: missing entry yields nil; an entry whose expiry
lies strictly before now (`time.Now().After(ExpireTime)`) also yields
nil. -/
def getPolicy (policies : List (String × Policy)) (clusterId : String)
    (now : ℚ) : Option Policy :=
  match lookupA policies clusterId with
  | none => none
  | some p => if p.expireTime < now then none else some p

/-- Method `loadExistingPolicies`: every decodable record from the
`/policies/` prefix is stored and announced to the callbacks; undecodable
records are skipped.  No expiry check occurs. -/
def loadExistingPolicies (policies : List (String × Policy))
    (kvs : List (String × Option Policy)) :
    List (String × Policy) × List WatcherNotification :=
  kvs.foldl
    (fun acc kv =>
      match kv.2 with
      | none => acc
      | some p => (insertA acc.1 kv.1 p, acc.2 ++ [.update kv.1 p]))
    (policies, [])

/-- Method `handleConfigEvent`: a put stores and announces the decoded
policy (skipping undecodable values); a delete removes the entry and
announces the deletion.  No expiry check occurs. -/
def handleConfigEvent (policies : List (String × Policy))
    (ev : WatchEvent) :
    List (String × Policy) × List WatcherNotification :=
  match ev with
  | .put _ none => (policies, [])
  | .put id (some p) => (insertA policies id p, [.update id p])
  | .del id => (removeA policies id, [.delete id])

/-- An already-expired policy record (expire time 0). -/
def expiredPolicy : Policy :=
  { policyId := "p1", clusterId := "k", policyType := .circuitBreak,
    severity := 9/10, rateLimit := none,
    circuitBreak := some ⟨5, 1⟩, createTime := 0, expireTime := 0,
    isActive := true }

/-- C8 counterexample: a policy whose expiry (time 0) lies before the
current time 1 is nevertheless stored and delivered to the callbacks,
both by a watch put event and by the initial prefix load — the watcher
checks expiry only inside `GetPolicy`. -/
theorem watcher_delivers_expired_policy :
    (handleConfigEvent [] (.put "k" (some expiredPolicy))).2 =
        [.update "k" expiredPolicy] ∧
    (loadExistingPolicies [] [("k", some expiredPolicy)]).2 =
        [.update "k" expiredPolicy] ∧
    lookupA (handleConfigEvent []
        (.put "k" (some expiredPolicy))).1 "k" = some expiredPolicy ∧
    expiredPolicy.expireTime < 1 := by
  refine ⟨rfl, rfl, rfl, ?_⟩
  norm_num [expiredPolicy]

/-- C8 amended: `GetPolicy` never returns a policy whose expire time
lies before the current time, but the watcher's load path and its
put-event path store and deliver policies to the registered callbacks
without any expiry check (and the watcher has no expiry sweeper of its
own). -/
theorem policy_expiry_rule (policies : List (String × Policy))
    (id : String) (p : Policy) (now : ℚ) :
    (lookupA policies id = some p → p.expireTime < now →
      getPolicy policies id now = none) ∧
    handleConfigEvent policies (.put id (some p)) =
        (insertA policies id p, [.update id p]) ∧
    loadExistingPolicies policies [(id, some p)] =
        (insertA policies id p, [.update id p]) := by
  refine ⟨?_, rfl, rfl⟩
  intro h he
  simp [getPolicy, h, if_pos he]

/-- C8 witness: the amended rule at the concrete expired policy and
current time 1. -/
theorem policy_expiry_rule_witness :
    getPolicy [("k", expiredPolicy)] "k" 1 = none :=
  (policy_expiry_rule [("k", expiredPolicy)] "k" expiredPolicy 1).1 rfl
    (by norm_num [expiredPolicy])

/-! ## Desensitizer (`pkg/utils/desensitizer.go`)

`NewDesensitizer` installs six regex rules (phone, email, token, ip,
uuid, creditcard) and `Desensitize` applies
`regex.ReplaceAllString(result, replacement)` for each rule in map
iteration order.  The embedding implements each of those six concrete
patterns directly over `List Char` with Go's (RE2) semantics: matching is
ASCII, `\b` is a word boundary with word characters `[0-9A-Za-z_]`, the
overall match is leftmost with Perl-style greedy preference (encoded by
the descending candidate orders below), and `ReplaceAllString` rewrites
successive non-overlapping leftmost matches while boundaries keep
referring to the original text.  The Go map iterates in an unspecified
order; this embedding fixes one possible order, the insertion order
phone → email → token → ip → uuid → creditcard. -/

def isWordChar (c : Char) : Bool := c.isAlphanum || c = '_'

def isHexDigit (c : Char) : Bool :=
  c.isDigit || ('a' ≤ c && c ≤ 'f') || ('A' ≤ c && c ≤ 'F')

def isEmailLocalChar (c : Char) : Bool :=
  c.isAlphanum || c = '.' || c = '_' || c = '%' || c = '+' || c = '-'

def isEmailDomainChar (c : Char) : Bool :=
  c.isAlphanum || c = '.' || c = '-'

def isEmailTldChar (c : Char) : Bool :=
  ('A' ≤ c && c ≤ 'Z') || ('a' ≤ c && c ≤ 'z') || c = '|'

def isCardSep (c : Char) : Bool := c = '-' || c = ' '

def wordB (prev next : Option Char) : Bool :=
  (match prev with | some c => isWordChar c | none => false) !=
  (match next with | some c => isWordChar c | none => false)

def takeCount (p : Char → Bool) : List Char → ℕ
  | [] => 0
  | c :: rest => if p c then takeCount p rest + 1 else 0

def descRange (hi lo : ℕ) : List ℕ :=
  (List.range (hi + 1 - lo)).map (fun i => hi - i)

def matchPhone (prev : Option Char) (rest : List Char) : Option ℕ :=
  if 11 ≤ takeCount Char.isDigit rest ∧ wordB prev rest.head? ∧
      wordB (rest.get? 10) (rest.get? 11) then some 11 else none

def matchToken (prev : Option Char) (rest : List Char) : Option ℕ :=
  if wordB prev rest.head? then
    (descRange (takeCount Char.isAlphanum rest) 20).findSome? (fun n =>
      if wordB (rest.get? (n - 1)) (rest.get? n) then some n else none)
  else none

def matchEmail (prev : Option Char) (rest : List Char) : Option ℕ :=
  if wordB prev rest.head? then
    (descRange (takeCount isEmailLocalChar rest) 1).findSome? (fun n1 =>
      if rest.get? n1 = some '@' then
        let r2 := rest.drop (n1 + 1)
        (descRange (takeCount isEmailDomainChar r2) 1).findSome? (fun n2 =>
          if r2.get? n2 = some '.' then
            let r3 := r2.drop (n2 + 1)
            (descRange (takeCount isEmailTldChar r3) 2).findSome? (fun n3 =>
              if wordB (r3.get? (n3 - 1)) (r3.get? n3) then
                some (n1 + 1 + n2 + 1 + n3)
              else none)
          else none)
      else none)
  else none

def matchIp (prev : Option Char) (rest : List Char) : Option ℕ :=
  if wordB prev rest.head? then
    (descRange 3 1).findSome? (fun k1 =>
      if k1 ≤ takeCount Char.isDigit rest ∧ rest.get? k1 = some '.' then
        let r2 := rest.drop (k1 + 1)
        (descRange 3 1).findSome? (fun k2 =>
          if k2 ≤ takeCount Char.isDigit r2 ∧ r2.get? k2 = some '.' then
            let r3 := r2.drop (k2 + 1)
            (descRange 3 1).findSome? (fun k3 =>
              if k3 ≤ takeCount Char.isDigit r3 ∧ r3.get? k3 = some '.' then
                let r4 := r3.drop (k3 + 1)
                (descRange 3 1).findSome? (fun k4 =>
                  if k4 ≤ takeCount Char.isDigit r4 ∧
                      wordB (r4.get? (k4 - 1)) (r4.get? k4) then
                    some (k1 + 1 + k2 + 1 + k3 + 1 + k4)
                  else none)
              else none)
          else none)
      else none)
  else none

def takeExact (p : Char → Bool) (n : ℕ) (l : List Char) :
    Option (List Char) :=
  if n ≤ takeCount p l then some (l.drop n) else none

def expectDash (l : List Char) : Option (List Char) :=
  match l with
  | '-' :: r => some r
  | _ => none

def matchUuid (_prev : Option Char) (rest : List Char) : Option ℕ :=
  match ((((((((takeExact isHexDigit 8 rest).bind expectDash).bind
      (takeExact isHexDigit 4)).bind expectDash).bind
      (takeExact isHexDigit 4)).bind expectDash).bind
      (takeExact isHexDigit 4)).bind expectDash).bind
      (takeExact isHexDigit 12) with
  | some _ => some 36
  | none => none

def card4 (l : List Char) : Option (List Char) := takeExact Char.isDigit 4 l

def cardSep (b : Bool) (l : List Char) : Option (List Char) :=
  if b then
    match l with
    | c :: r => if isCardSep c then some r else none
    | [] => none
  else some l

def endBoundaryAfterDigit (l : List Char) : Bool :=
  match l.head? with
  | none => true
  | some c => ! isWordChar c

def cardAttempt (s1 s2 s3 : Bool) (rest : List Char) : Option ℕ :=
  (card4 rest).bind fun r1 =>
  (cardSep s1 r1).bind fun r2 =>
  (card4 r2).bind fun r3 =>
  (cardSep s2 r3).bind fun r4 =>
  (card4 r4).bind fun r5 =>
  (cardSep s3 r5).bind fun r6 =>
  (card4 r6).bind fun r7 =>
  if endBoundaryAfterDigit r7 then
    some (16 + (if s1 then 1 else 0) + (if s2 then 1 else 0) +
      (if s3 then 1 else 0))
  else none

def matchCard (prev : Option Char) (rest : List Char) : Option ℕ :=
  if wordB prev rest.head? then
    [(true, true, true), (true, true, false), (true, false, true),
     (true, false, false), (false, true, true), (false, true, false),
     (false, false, true), (false, false, false)].findSome?
      (fun s => cardAttempt s.1 s.2.1 s.2.2 rest)
  else none

def replaceScan (m : Option Char → List Char → Option ℕ)
    (repl : List Char) : ℕ → Option Char → List Char → List Char
  | 0, _, s => s
  | _ + 1, _, [] => []
  | fuel + 1, prev, c :: rest =>
      match m prev (c :: rest) with
      | some n =>
          repl ++ replaceScan m repl fuel ((c :: rest).get? (n - 1))
            ((c :: rest).drop n)
      | none => c :: replaceScan m repl fuel (some c) rest

def replaceAllM (m : Option Char → List Char → Option ℕ)
    (repl : List Char) (s : List Char) : List Char :=
  replaceScan m repl s.length none s

def desensitizeChars (s : List Char) : List Char :=
  replaceAllM matchCard "[CARD]".toList
    (replaceAllM matchUuid "[UUID]".toList
      (replaceAllM matchIp "[IP]".toList
        (replaceAllM matchToken "[TOKEN]".toList
          (replaceAllM matchEmail "[EMAIL]".toList
            (replaceAllM matchPhone "[PHONE]".toList s)))))

def desensitize (s : String) : String := String.mk (desensitizeChars s.toList)


/-- C9 counterexample: one pass turns the string
`12345678901aaaaaaaa-bbbb-cccc-dddd-eeeeeeeeeeee` into
`12345678901[UUID]` (the eleven digits are glued to the UUID, so the
phone rule sees no word boundary), and a second pass then masks the now
exposed phone number — `Desensitize` is not idempotent. -/
theorem desensitize_not_idempotent :
    desensitize "12345678901aaaaaaaa-bbbb-cccc-dddd-eeeeeeeeeeee" =
        "12345678901[UUID]" ∧
    desensitize "12345678901[UUID]" = "[PHONE][UUID]" ∧
    desensitize (desensitize
        "12345678901aaaaaaaa-bbbb-cccc-dddd-eeeeeeeeeeee") ≠
      desensitize "12345678901aaaaaaaa-bbbb-cccc-dddd-eeeeeeeeeeee" := by
  refine ⟨by decide, by decide, by decide⟩

/-- C9 amended: `Desensitize` is not idempotent in general — one pass
can expose a fresh match for an earlier-applied rule — but every
replacement marker, and their concatenation, is a fixed point of
`Desensitize`. -/
theorem desensitize_markers_fixed :
    desensitize "[PHONE]" = "[PHONE]" ∧
    desensitize "[EMAIL]" = "[EMAIL]" ∧
    desensitize "[TOKEN]" = "[TOKEN]" ∧
    desensitize "[IP]" = "[IP]" ∧
    desensitize "[UUID]" = "[UUID]" ∧
    desensitize "[CARD]" = "[CARD]" ∧
    desensitize "[PHONE][EMAIL][TOKEN][IP][UUID][CARD]" =
      "[PHONE][EMAIL][TOKEN][IP][UUID][CARD]" := by
  refine ⟨by decide, by decide, by decide, by decide, by decide,
    by decide, by decide⟩
